import Mathlib

/-!
Shallow embedding of the riverraidrust game core (src/main.rs).

The source works on `u16` values. Positions and wall columns are modelled as
`Nat`; at the places where the source's `u16` arithmetic can wrap we use
explicit wrapping helpers (`wadd`, `wsub`, modulo `2^16`). All other
additions/subtractions in the source are guarded so they cannot wrap on any
`u16` state, and there plain `Nat` arithmetic coincides with `u16`.

Randomness: the source draws from a global rng via `rng.gen_range(lo..hi)`.
We thread an explicit stream of draws (`List Nat`); `genRange lo hi` maps the
next raw draw into the half-open interval `[lo, hi)` and fails (`none`) when
the interval is empty, which is exactly the case in which the Rust call
panics. Any run of `physics` that would panic in Rust (index out of bounds,
empty `gen_range` interval) is modelled as `none`.
-/

/-- Wrapping 16-bit addition, as performed by release-mode `u16` `+`. -/
def wadd (a b : Nat) : Nat := (a + b) % 65536

/-- Wrapping 16-bit subtraction, as performed by release-mode `u16` `-`. -/
def wsub (a b : Nat) : Nat := (a + 65536 - b % 65536) % 65536

/-- Model of `u16::abs_diff`. -/
def absDiff (a b : Nat) : Nat := if a ≤ b then b - a else a - b

/-- Model of `rng.gen_range(lo..hi)`: the next stream value folded into `[lo, hi)`.
The Rust call panics when the range is empty; we return `none` then. -/
def genRange (lo hi : Nat) (rng : List Nat) : Option (Nat × List Nat) :=
  if lo < hi then some (lo + (rng.headD 0 % (hi - lo)), rng.tail) else none

/-- The `enum PlayerStatus` of the source. -/
inductive PlayerStatus where
  | Dead
  | Alive
  | Animation
  | Paused
deriving DecidableEq, Repr

/-- The `struct Location { l: u16, c: u16 }` of the source. -/
structure Location where
  l : Nat
  c : Nat
deriving DecidableEq, Repr

/-- Method `Location::hit`. -/
def Location.hit (self : Location) (x : Location) : Bool :=
  self.c == x.c && self.l == x.l

/-- The `struct Enemy` of the source. -/
structure Enemy where
  location : Location
deriving DecidableEq, Repr

/-- The `struct Bullet` of the source. -/
structure Bullet where
  location : Location
  energy : Nat
deriving DecidableEq, Repr

/-- The `struct World` of the source. -/
structure World where
  player_location : Location
  maxc : Nat
  maxl : Nat
  status : PlayerStatus
  map : List (Nat × Nat)
  next_right : Nat
  next_left : Nat
  ship : String
  enemy : List Enemy
  bullet : List Bullet
deriving DecidableEq, Repr

/-- Constructor `Bullet::new`. -/
def Bullet.new (world : World) : Bullet :=
  { location := ⟨world.player_location.l, world.player_location.c⟩
    energy := world.maxl / 2 }

/-- Constructor `World::new`. `maxl - 1`, `maxc/2 - 5` and `maxc/2 - 7` can underflow on
degenerate terminal sizes, hence the wrapping helpers; `maxc/2 + 5` and
`maxc/2 + 7` cannot wrap for any `u16` input. -/
def World.new (maxc maxl : Nat) : World :=
  { player_location := ⟨wsub maxl 1, maxc / 2⟩
    map := List.replicate maxl (wsub (maxc / 2) 5, maxc / 2 + 5)
    maxc := maxc
    maxl := maxl
    status := PlayerStatus.Alive
    next_left := wsub (maxc / 2) 7
    next_right := maxc / 2 + 7
    ship := "P"
    enemy := []
    bullet := [] }

/-- The per-enemy bullet loop inside the collision pass: for a fixed enemy
index `i`, scan all bullets in order, re-reading `enemy[i]` each time, and
`remove(i)` on a hit (exact cell or one row above via `saturating_sub`).
An out-of-range read of `enemy[i]` is a Rust panic: `none`. -/
def hitInner (i : Nat) : List Bullet → List Enemy → Option (List Enemy)
  | [], es => some es
  | b :: bs, es =>
    match es[i]? with
    | none => none
    | some e =>
      if b.location.hit e.location || b.location.hit ⟨e.location.l - 1, e.location.c⟩ then
        hitInner i bs (es.eraseIdx i)
      else
        hitInner i bs es

/-- The player/enemy and bullet/enemy resolution pass: `for i in
(0..world.enemy.len()).rev()`, first the player-collision status update,
then the bullet loop. Called with `i = enemy.length`; iteration `i+1`
processes index `i`. -/
def hitPass (pl : Location) (bullets : List Bullet) :
    Nat → PlayerStatus × List Enemy → Option (PlayerStatus × List Enemy)
  | 0, st => some st
  | i + 1, st =>
    match st.2[i]? with
    | none => none
    | some e =>
      let st1 := if e.location.c == pl.c && e.location.l == pl.l then PlayerStatus.Dead else st.1
      match hitInner i bullets st.2 with
      | none => none
      | some es2 => hitPass pl bullets i (st1, es2)

/-- Loop `for l in (1..world.map.len()).rev() { world.map[l] = world.map[l - 1] }`:
the argument is the index being written this iteration; index `0` is not
written. -/
def shiftAux : List (Nat × Nat) → Nat → List (Nat × Nat)
  | m, 0 => m
  | m, i + 1 => shiftAux (m.set (i + 1) (m.getD i (0, 0))) i

/-- The map scroll: shift every row down one, starting from the last row. -/
def shiftMap (m : List (Nat × Nat)) : List (Nat × Nat) :=
  shiftAux m (m.length - 1)

/-- One side of the retarget step, e.g.
`if world.next_left == world.map[0].0 && rng.gen_range(0..10) >= 7
 { world.next_left = rng.gen_range(world.next_left - 5..world.next_left + 5) }`.
`cur` is the (already scrolled) row-0 wall value, `tgt` the current target.
The `&&` is short-circuiting: the check draw happens only at equality, and
the `- 5` / `+ 5` are wrapping `u16` operations. -/
def retargetSide (cur tgt : Nat) (rng : List Nat) : Option (Nat × List Nat) :=
  if tgt == cur then
    match genRange 0 10 rng with
    | none => none
    | some (d, rng1) =>
      if d ≥ 7 then genRange (wsub tgt 5) (wadd tgt 5) rng1
      else some (tgt, rng1)
  else
    some (tgt, rng)

/-- Loop `for i in (0..world.enemy.len()).rev()`: move each enemy down one row,
removing those whose row has reached `maxl`. The argument counts down; the
processed index is one less than it. The `none` branch of the lookup cannot
arise on the calls `physics` makes (at most one element is removed per
index); it is kept only to make the lookup total. -/
def moveEnemiesLoop (maxl : Nat) : Nat → List Enemy → List Enemy
  | 0, es => es
  | i + 1, es =>
    match es[i]? with
    | none => moveEnemiesLoop maxl i es
    | some e =>
      if e.location.l < maxl then
        moveEnemiesLoop maxl i (es.set i ⟨⟨e.location.l + 1, e.location.c⟩⟩)
      else
        moveEnemiesLoop maxl i (es.eraseIdx i)

/-- Enemy spawn: `if rng.gen_range(0..10) >= 9` then push an enemy at row 0
with column `rng.gen_range(world.map[0].0..world.map[1].1)` (on the already
scrolled map). `world.map[1]` is a panicking index when the map has fewer
than two rows. -/
def spawnPhase (map : List (Nat × Nat)) (es : List Enemy) (rng : List Nat) :
    Option (List Enemy × List Nat) :=
  match genRange 0 10 rng with
  | none => none
  | some (d, rng1) =>
    if d ≥ 9 then
      match map[0]?, map[1]? with
      | some a, some b =>
        match genRange a.1 b.2 rng1 with
        | none => none
        | some (c, rng2) => some (es ++ [⟨⟨0, c⟩⟩], rng2)
      | _, _ => none
    else
      some (es, rng1)

/-- Loop `for i in (0..world.bullet.len()).rev()`: expire bullets with zero energy
or row below 3; otherwise move two rows up, decrement the energy, and force
the energy to 0 when the row fell below 2. The row decrement is guarded by
`l ≥ 3`, so plain subtraction is exact. -/
def moveBulletsLoop : Nat → List Bullet → List Bullet
  | 0, bs => bs
  | i + 1, bs =>
    match bs[i]? with
    | none => moveBulletsLoop i bs
    | some b =>
      if b.energy = 0 ∨ b.location.l < 3 then
        moveBulletsLoop i (bs.eraseIdx i)
      else
        let l2 := b.location.l - 2
        let b2 : Bullet := ⟨⟨l2, b.location.c⟩, if l2 < 2 then 0 else b.energy - 1⟩
        moveBulletsLoop i (bs.set i b2)

/-- Function `fn physics(world: &mut World)`, with the rng draws made explicit.
`none` models a Rust panic (out-of-bounds index or empty `gen_range`
interval). Phase order follows the source: wall collision, enemy/bullet
resolution, map scroll, row-0 drift, retargeting, width clamp, enemy
move/spawn, bullet move. -/
def physics (world : World) (rng : List Nat) : Option (World × List Nat) :=
  world.map[world.player_location.l]?.bind fun row =>
    let status1 :=
      if world.player_location.c ≤ row.1 ∨ world.player_location.c ≥ row.2 then
        PlayerStatus.Dead
      else world.status
    (hitPass world.player_location world.bullet world.enemy.length
        (status1, world.enemy)).bind fun se =>
      let map3 := shiftMap world.map
      map3[0]?.bind fun lr =>
        let l1 := if world.next_left > lr.1 then lr.1 + 1
                  else if world.next_left < lr.1 then lr.1 - 1 else lr.1
        let r1 := if world.next_right > lr.2 then lr.2 + 1
                  else if world.next_right < lr.2 then lr.2 - 1 else lr.2
        let map4 := map3.set 0 (l1, r1)
        (retargetSide l1 world.next_left rng).bind fun nlr =>
          (retargetSide r1 world.next_right nlr.2).bind fun nrr =>
            let nr := if absDiff nrr.1 nlr.1 < 3 then wadd nrr.1 3 else nrr.1
            let enemy3 := moveEnemiesLoop world.maxl se.2.length se.2
            (spawnPhase map4 enemy3 nrr.2).bind fun er =>
              some ({ world with
                        status := se.1
                        map := map4
                        next_left := nlr.1
                        next_right := nr
                        enemy := er.1
                        bullet := moveBulletsLoop world.bullet.length world.bullet }, er.2)

/-- Iterated physics ticks on a single draw stream. -/
def steps : Nat → World → List Nat → Option (World × List Nat)
  | 0, w, rng => some (w, rng)
  | n + 1, w, rng =>
    match physics w rng with
    | none => none
    | some (w1, rng1) => steps n w1 rng1

/-- The actionable key presses of the main-loop `match` ('q' only breaks the
loop and never touches the world). -/
inductive GameKey where
  | keyW
  | keyS
  | keyD
  | keyA
  | keyUp
  | keyDown
  | keyLeft
  | keyRight
  | keySpace
  | keyOther
deriving DecidableEq, Repr

/-- The main-loop input handling for one key press. The source compares
against the `maxc`/`maxl` locals of `main`, which are the very values stored
in the world by `World::new`; `maxl - 1` / `maxc - 1` are `u16`
subtractions. -/
def applyKey (world : World) (k : GameKey) : World :=
  match k with
  | .keyW | .keyUp =>
    if world.player_location.l > 1 then
      { world with player_location := ⟨world.player_location.l - 1, world.player_location.c⟩ }
    else world
  | .keyS | .keyDown =>
    if world.player_location.l < wsub world.maxl 1 then
      { world with player_location := ⟨world.player_location.l + 1, world.player_location.c⟩ }
    else world
  | .keyD | .keyRight =>
    if world.player_location.c < wsub world.maxc 1 then
      { world with player_location := ⟨world.player_location.l, world.player_location.c + 1⟩ }
    else world
  | .keyA | .keyLeft =>
    if world.player_location.c > 1 then
      { world with player_location := ⟨world.player_location.l, world.player_location.c - 1⟩ }
    else world
  | .keySpace =>
    if world.bullet.length = 0 then
      { world with bullet := world.bullet ++ [Bullet.new world] }
    else world
  | .keyOther => world

/-- World states reachable by the game loop: the constructed world, a key
press, or a completed physics tick. -/
inductive Reachable : World → Prop
  | init : ∀ maxc maxl, Reachable (World.new maxc maxl)
  | key : ∀ w k, Reachable w → Reachable (applyKey w k)
  | tick : ∀ w rng p, Reachable w → physics w rng = some p → Reachable p.1
/-- A concrete draw stream for a run from `World.new 40 20`: it retargets the
left wall target to 17, 21 and 24 as row 0 catches up, and on the tick where
both sides of row 0 sit on their targets it retargets left to 28 and right
to 22 in the same tick. The crossed targets pass the width clamp
(`abs_diff = 6 ≥ 3`), and row 0 then converges to width 1. -/
def c1rng : List Nat :=
  [0, 0, 0, 0, 7, 9, 0, 0, 0, 0, 0, 0, 0, 0, 7, 9, 0, 0, 0, 0, 0, 0, 0, 0,
   7, 8, 0, 0, 0, 0, 0, 0, 7, 9, 7, 0, 0, 0]

/-- A concrete draw stream for a run from `World.new 40 20` that random-walks
the left target down: 13 to 8 to 4. Once row 0's left wall reaches 4 the
retarget draw fires and `gen_range(next_left - 5..next_left + 5)` is asked
for the wrapped empty range `[65535, 9)`. -/
def c2rng : List Nat :=
  [0, 0, 0, 0, 7, 0, 0, 0, 0, 0, 0, 0, 0, 0, 0, 0, 7, 1, 0, 0, 0, 0, 0, 0,
   0, 0, 7]

/-- An all-zero draw stream: no retarget fires (0 < 7) and no enemy spawns
(0 < 9). -/
def zeroRng : List Nat := List.replicate 120 0

/-- The world after one tick from `World.new 40 20` in which the 10% spawn
draw fires and places an enemy at row 0, column 16. -/
def spawnTickWorld : World :=
  ((physics (World.new 40 20) [9, 2]).getD (World.new 40 20, [])).1

/-- `World.new 40 20` with the player moved onto the left wall of its row:
`map[19] = (15, 25)` and the player column set to 15. -/
def c3World : World :=
  { World.new 40 20 with player_location := ⟨19, 15⟩ }

section Helpers

theorem shiftAux_getElem?_zero : ∀ (i : Nat) (m : List (Nat × Nat)), (shiftAux m i)[0]? = m[0]? := by
  intro i
  induction i with
  | zero => intro m; rfl
  | succ i ih =>
    intro m
    rw [shiftAux, ih, List.getElem?_set_ne (by omega)]

theorem shiftAux_length : ∀ (i : Nat) (m : List (Nat × Nat)), (shiftAux m i).length = m.length := by
  intro i
  induction i with
  | zero => intro m; rfl
  | succ i ih =>
    intro m
    rw [shiftAux, ih, List.length_set]

theorem shiftMap_getElem?_zero (m : List (Nat × Nat)) : (shiftMap m)[0]? = m[0]? :=
  shiftAux_getElem?_zero _ m

theorem shiftMap_length (m : List (Nat × Nat)) : (shiftMap m).length = m.length :=
  shiftAux_length _ m

theorem retargetSide_eq_of_ne {cur tgt : Nat} {rng : List Nat} {v : Nat} {rng1 : List Nat}
    (h : retargetSide cur tgt rng = some (v, rng1)) (hv : v ≠ tgt) : tgt = cur := by
  unfold retargetSide at h
  split at h
  · next hbeq => exact eq_of_beq hbeq
  · exact absurd (by injection h with h; exact (Prod.mk.injEq _ _ _ _ ▸ h).1.symm) hv

end Helpers
theorem hitPass_dead : ∀ (pl : Location) (bs : List Bullet) (i : Nat) (es : List Enemy)
    (r : PlayerStatus × List Enemy),
    hitPass pl bs i (PlayerStatus.Dead, es) = some r → r.1 = PlayerStatus.Dead := by
  intro pl bs i
  induction i with
  | zero =>
    intro es r h
    simp [hitPass] at h
    rw [← h]
  | succ i ih =>
    intro es r h
    rw [hitPass] at h
    dsimp only at h
    simp only [ite_self] at h
    cases hei : es[i]? with
    | none => rw [hei] at h; exact absurd h (by simp)
    | some e =>
      rw [hei] at h
      cases hh : hitInner i bs es with
      | none => rw [hh] at h; exact absurd h (by simp)
      | some es2 => rw [hh] at h; exact ih es2 r h
theorem hitInner_of_le_one (i : Nat) (bs : List Bullet) (es : List Enemy)
    (hb : bs.length ≤ 1) (hi : i < es.length) :
    ∃ es2, hitInner i bs es = some es2 ∧ es2.Sublist es ∧ es.length ≤ es2.length + 1 := by
  match bs with
  | [] => exact ⟨es, rfl, List.Sublist.refl es, Nat.le_succ _⟩
  | [b] =>
    rw [hitInner, List.getElem?_eq_getElem hi]
    dsimp only
    by_cases hc : (b.location.hit es[i].location ||
        b.location.hit ⟨es[i].location.l - 1, es[i].location.c⟩) = true
    · rw [if_pos hc]
      refine ⟨es.eraseIdx i, rfl, List.eraseIdx_sublist es i, ?_⟩
      rw [List.length_eraseIdx, if_pos hi]
      omega
    · rw [if_neg hc]
      exact ⟨es, rfl, List.Sublist.refl es, Nat.le_succ _⟩
  | b :: b' :: bs' => simp at hb

theorem hitPass_of_le_one (pl : Location) (bs : List Bullet) :
    ∀ (i : Nat) (st : PlayerStatus) (es : List Enemy), bs.length ≤ 1 → i ≤ es.length →
    ∃ r, hitPass pl bs i (st, es) = some r ∧ r.2.Sublist es := by
  intro i
  induction i with
  | zero => exact fun st es _ _ => ⟨(st, es), rfl, List.Sublist.refl es⟩
  | succ i ih =>
    intro st es hb hi
    have hlt : i < es.length := hi
    obtain ⟨es2, h2, hsub, hlen⟩ := hitInner_of_le_one i bs es hb hlt
    have hi2 : i ≤ es2.length := by omega
    obtain ⟨r, hr, hrsub⟩ :=
      ih (if (es[i].location.c == pl.c && es[i].location.l == pl.l) then PlayerStatus.Dead else st)
        es2 hb hi2
    refine ⟨r, ?_, hrsub.trans hsub⟩
    rw [hitPass]
    dsimp only
    rw [List.getElem?_eq_getElem hlt]
    dsimp only
    rw [h2]
    exact hr
theorem moveBulletsLoop_length_le : ∀ (i : Nat) (bs : List Bullet),
    (moveBulletsLoop i bs).length ≤ bs.length := by
  intro i
  induction i with
  | zero => intro bs; exact Nat.le_refl _
  | succ i ih =>
    intro bs
    rw [moveBulletsLoop]
    cases hbi : bs[i]? with
    | none => exact ih bs
    | some b =>
      dsimp only
      split
      · calc (moveBulletsLoop i (bs.eraseIdx i)).length ≤ (bs.eraseIdx i).length := ih _
          _ ≤ bs.length := (List.eraseIdx_sublist bs i).length_le
      · calc (moveBulletsLoop i (bs.set i _)).length ≤ (bs.set i _).length := ih _
          _ = bs.length := List.length_set bs i _

theorem physics_some_fields (w : World) (rng : List Nat) (p : World × List Nat)
    (h : physics w rng = some p) :
    p.1.player_location = w.player_location ∧ p.1.maxc = w.maxc ∧ p.1.maxl = w.maxl ∧
    p.1.ship = w.ship ∧ p.1.bullet = moveBulletsLoop w.bullet.length w.bullet := by
  simp only [physics, Option.bind_eq_some] at h
  obtain ⟨row, hrow, se, hse, lr, hlr, nlr, hnl, nrr, hnr, er, hsp, hfin⟩ := h
  injection hfin with hfin
  rw [← hfin]
  exact ⟨rfl, rfl, rfl, rfl, rfl⟩
theorem applyKey_bullet_le_one (w : World) (k : GameKey) (h : w.bullet.length ≤ 1) :
    (applyKey w k).bullet.length ≤ 1 := by
  cases k <;> simp only [applyKey] <;> try split
  all_goals simp_all

theorem reachable_bullet_le_one : ∀ (w : World), Reachable w → w.bullet.length ≤ 1 := by
  intro w h
  induction h with
  | init maxc maxl => simp [World.new]
  | key w k _ ih => exact applyKey_bullet_le_one w k ih
  | tick w rng p _ hp ih =>
    have hb := (physics_some_fields w rng p hp).2.2.2.2
    rw [hb]
    exact Nat.le_trans (moveBulletsLoop_length_le _ _) ih

theorem getElem?_append_cons_self (ys : List Enemy) (z : Enemy) (zs : List Enemy) :
    (ys ++ z :: zs)[ys.length]? = some z := by
  rw [List.getElem?_append_right (Nat.le_refl _)]
  simp

theorem set_append_cons_self (ys : List Enemy) (z z' : Enemy) (zs : List Enemy) :
    (ys ++ z :: zs).set ys.length z' = ys ++ z' :: zs := by
  induction ys with
  | nil => rfl
  | cons y ys ih => simp [List.set, ih]

theorem eraseIdx_append_cons_self (ys : List Enemy) (z : Enemy) (zs : List Enemy) :
    (ys ++ z :: zs).eraseIdx ys.length = ys ++ zs := by
  induction ys with
  | nil => rfl
  | cons y ys ih => simp [List.eraseIdx, ih]

/-- The enemy move/despawn loop is elementwise: each enemy below `maxl`
advances one row, each enemy at or past `maxl` is dropped. -/
theorem moveEnemiesLoop_eq_filterMap (maxl : Nat) :
    ∀ (ys zs : List Enemy),
      moveEnemiesLoop maxl ys.length (ys ++ zs) =
        ys.filterMap (fun e =>
          if e.location.l < maxl then some ⟨⟨e.location.l + 1, e.location.c⟩⟩ else none) ++ zs := by
  intro ys
  induction ys using List.reverseRecOn with
  | nil => intro zs; rfl
  | append_singleton ys e ih =>
    intro zs
    have hlen : (ys ++ [e]).length = ys.length + 1 := by simp
    rw [hlen, List.append_assoc, List.singleton_append, moveEnemiesLoop,
        getElem?_append_cons_self]
    dsimp only
    split
    · rw [set_append_cons_self, ih]
      simp_all
    · rw [eraseIdx_append_cons_self, ih]
      simp_all
/-- C1: the claim says every tunnel row keeps `right - left ≥ 3` after every
physics step from every reachable state. The code's width clamp misses
crossed targets: from the freshly constructed `World.new 40 20`, 15 physics
ticks with the draw stream `c1rng` leave row 0 at `(25, 26)`, of width
`1 < 3`. -/
theorem C1_width_floor_violated :
    (steps 15 (World.new 40 20) c1rng).map (fun p => p.1.map[0]?) = some (some (25, 26)) ∧
    26 - 25 < 3 :=
  ⟨rfl, by decide⟩

/-- C2: the claim says no tick can panic from unsigned underflow. The
retarget bounds `next_left - 5` are plain `u16` subtraction: from
`World.new 40 20`, 11 ticks of `c2rng` reach the state `next_left = 4`,
row 0 at `(5, 27)`; the 12th tick moves row 0's left wall onto the target,
draws `7 ≥ 7`, and `gen_range` is asked for the wrapped empty range, i.e.
the tick panics (`none`). -/
theorem C2_retarget_underflow_panics :
    (steps 11 (World.new 40 20) c2rng).map (fun p => (p.1.next_left, p.1.map[0]?)) =
      some (4, some (5, 27)) ∧
    steps 12 (World.new 40 20) c2rng = none :=
  ⟨rfl, rfl⟩

/-- C6 counterexample: the claim says a spawned enemy's column is strictly
greater than `map[0].left`. One tick from `World.new 40 20` with draws
`[9, 0]` spawns an enemy at column 14 while `map[0] = (14, 26)`: the column
equals the left bound, it is not strictly greater. -/
theorem C6_spawn_at_left_wall :
    (physics (World.new 40 20) [9, 0]).map (fun p => (p.1.enemy, p.1.map[0]?)) =
      some ([⟨⟨0, 14⟩⟩], some (14, 26)) ∧
    ¬ (14 : Nat) < 14 :=
  ⟨rfl, by decide⟩

/-- C7 counterexample: the claim says an enemy spawned at row 0 with
`maxRow = 20` is out of the list after 20 ticks. `spawnTickWorld` holds one
enemy at `(0, 16)`; after 20 further all-zero-draw ticks the enemy is still
in the list, at row 20. -/
theorem C7_enemy_survives_20_ticks :
    spawnTickWorld.enemy = [⟨⟨0, 16⟩⟩] ∧ spawnTickWorld.maxl = 20 ∧
    (steps 20 spawnTickWorld zeroRng).map (fun p => p.1.enemy) = some [⟨⟨20, 16⟩⟩] :=
  ⟨rfl, rfl, rfl⟩
/-- C10: a completed physics step never changes the player position, the
stored terminal dimensions, or the player glyph. -/
theorem C10_physics_frame (w : World) (rng : List Nat) (p : World × List Nat)
    (h : physics w rng = some p) :
    p.1.player_location = w.player_location ∧ p.1.maxc = w.maxc ∧ p.1.maxl = w.maxl ∧
    p.1.ship = w.ship :=
  ⟨(physics_some_fields w rng p h).1, (physics_some_fields w rng p h).2.1,
   (physics_some_fields w rng p h).2.2.1, (physics_some_fields w rng p h).2.2.2.1⟩

/-- C10 witness: one concrete tick from `World.new 40 20`. -/
theorem C10_physics_frame_witness :
    ((physics (World.new 40 20) [0]).getD (World.new 40 20, [])).1.player_location =
      (World.new 40 20).player_location ∧
    ((physics (World.new 40 20) [0]).getD (World.new 40 20, [])).1.maxc = (World.new 40 20).maxc ∧
    ((physics (World.new 40 20) [0]).getD (World.new 40 20, [])).1.maxl = (World.new 40 20).maxl ∧
    ((physics (World.new 40 20) [0]).getD (World.new 40 20, [])).1.ship = (World.new 40 20).ship :=
  C10_physics_frame (World.new 40 20) [0] _ rfl

/-- C3: a player column on or beyond the walls of its row makes the physics
step end with status Dead. -/
theorem C3_wall_collision_dead (w : World) (rng : List Nat) (p : World × List Nat)
    (le ri : Nat) (hrow : w.map[w.player_location.l]? = some (le, ri))
    (hc : w.player_location.c ≤ le ∨ w.player_location.c ≥ ri)
    (h : physics w rng = some p) :
    p.1.status = PlayerStatus.Dead := by
  simp only [physics, Option.bind_eq_some] at h
  obtain ⟨row, hrow2, se, hse, lr, hlr, nlr, hnl, nrr, hnr, er, hsp, hfin⟩ := h
  rw [hrow] at hrow2
  injection hrow2 with hrow2
  subst hrow2
  rw [if_pos hc] at hse
  have hst := hitPass_dead w.player_location w.bullet w.enemy.length w.enemy se hse
  injection hfin with hfin
  rw [← hfin]
  exact hst

/-- C3 witness: the player of `c3World` sits on the left wall (column 15 with
`map[19] = (15, 25)`); one tick kills it. -/
theorem C3_wall_collision_dead_witness :
    ((physics c3World [0]).getD (c3World, [])).1.status = PlayerStatus.Dead :=
  C3_wall_collision_dead c3World [0] _ 15 25 rfl (Or.inl (by decide)) rfl

/-- C4: every reachable world holds at most one projectile; a fire intent on
an empty projectile list creates exactly one bullet at the player's current
position, and a fire intent while one is in flight leaves the world
unchanged. -/
theorem C4_single_projectile (w : World) (h : Reachable w) :
    w.bullet.length ≤ 1 ∧
    (w.bullet = [] → (applyKey w GameKey.keySpace).bullet = [Bullet.new w]) ∧
    (w.bullet ≠ [] → applyKey w GameKey.keySpace = w) := by
  refine ⟨reachable_bullet_le_one w h, ?_, ?_⟩
  · intro hb
    simp [applyKey, hb]
  · intro hb
    rw [applyKey]
    rw [if_neg]
    simp [hb]

/-- C4 witness: the freshly constructed world. -/
theorem C4_single_projectile_witness :
    (World.new 40 20).bullet.length ≤ 1 ∧
    ((World.new 40 20).bullet = [] →
      (applyKey (World.new 40 20) GameKey.keySpace).bullet = [Bullet.new (World.new 40 20)]) ∧
    ((World.new 40 20).bullet ≠ [] →
      applyKey (World.new 40 20) GameKey.keySpace = World.new 40 20) :=
  C4_single_projectile _ (Reachable.init 40 20)

/-- C9: from any reachable world, the enemy resolution pass completes (no
index runs past the end of the enemy list) and returns a sublist of the
original enemies: each enemy is removed at most once, for any incoming
status. -/
theorem C9_enemy_removed_at_most_once (w : World) (h : Reachable w) (st : PlayerStatus) :
    ∃ r, hitPass w.player_location w.bullet w.enemy.length (st, w.enemy) = some r ∧
      r.2.Sublist w.enemy :=
  hitPass_of_le_one w.player_location w.bullet w.enemy.length st w.enemy
    (reachable_bullet_le_one w h) (Nat.le_refl _)

/-- C9 witness: the pass completes on the reachable world holding one
spawned enemy. -/
theorem C9_enemy_removed_at_most_once_witness :
    (hitPass spawnTickWorld.player_location spawnTickWorld.bullet
      spawnTickWorld.enemy.length (PlayerStatus.Alive, spawnTickWorld.enemy)).isSome = true := by
  obtain ⟨r, hr, -⟩ := C9_enemy_removed_at_most_once spawnTickWorld
    (Reachable.tick (World.new 40 20) [9, 2] _ (Reachable.init 40 20) rfl) PlayerStatus.Alive
  rw [hr]
  rfl
/-- C5: in any completed physics step, row 0 of the map moves by at most one
column per side and only toward the scroll targets, stays put once on
target, and a side's target is redrawn only when row 0's (post-move) value
on that side equals the old target; the only other change to the right
target is the `+ 3` width clamp. The last conjunct states the phase-level
fact directly: off target, `retargetSide` draws nothing and returns the
target unchanged. -/
theorem C5_row0_drift_retarget (w : World) (rng : List Nat) (p : World × List Nat)
    (l0 r0 l1 r1 : Nat)
    (h : physics w rng = some p)
    (h0 : w.map[0]? = some (l0, r0))
    (h1 : p.1.map[0]? = some (l1, r1)) :
    (l0 = w.next_left → l1 = l0) ∧
    (l0 < w.next_left → l1 = l0 + 1) ∧
    (w.next_left < l0 → l1 = l0 - 1) ∧
    (r0 = w.next_right → r1 = r0) ∧
    (r0 < w.next_right → r1 = r0 + 1) ∧
    (w.next_right < r0 → r1 = r0 - 1) ∧
    absDiff l1 l0 ≤ 1 ∧ absDiff r1 r0 ≤ 1 ∧
    (p.1.next_left ≠ w.next_left → l1 = w.next_left) ∧
    (p.1.next_right ≠ w.next_right → p.1.next_right ≠ wadd w.next_right 3 →
      r1 = w.next_right) ∧
    (∀ cur tgt rng0 v rng1, cur ≠ tgt → retargetSide cur tgt rng0 = some (v, rng1) →
      v = tgt ∧ rng1 = rng0) := by
  simp only [physics, Option.bind_eq_some] at h
  obtain ⟨row, hrow2, se, hse, lr, hlr, nlr, hnl, nrr, hnr, er, hsp, hfin⟩ := h
  rw [shiftMap_getElem?_zero, h0] at hlr
  injection hlr with hlr
  subst hlr
  have hlen : 0 < (shiftMap w.map).length := by
    rw [shiftMap_length]
    cases hm : w.map with
    | nil => rw [hm] at h0; simp at h0
    | cons a m => simp
  injection hfin with hfin
  rw [← hfin] at h1
  dsimp only at h1
  rw [List.getElem?_set_self hlen] at h1
  injection h1 with h1
  have hl1 : l1 = if w.next_left > l0 then l0 + 1 else if w.next_left < l0 then l0 - 1 else l0 := by
    have := congrArg Prod.fst h1
    simpa using this.symm
  have hr1 : r1 = if w.next_right > r0 then r0 + 1 else if w.next_right < r0 then r0 - 1 else r0 := by
    have := congrArg Prod.snd h1
    simpa using this.symm
  have hretNe : ∀ cur tgt rng0 v rng1, cur ≠ tgt → retargetSide cur tgt rng0 = some (v, rng1) →
      v = tgt ∧ rng1 = rng0 := by
    intro cur tgt rng0 v rng1 hne hr
    rw [retargetSide, if_neg (by simp [Ne.symm hne])] at hr
    injection hr with hr
    exact ⟨congrArg Prod.fst hr.symm, congrArg Prod.snd hr.symm⟩
  refine ⟨?_, ?_, ?_, ?_, ?_, ?_, ?_, ?_, ?_, ?_, hretNe⟩
  · intro hEq
    rw [hl1]
    repeat' split
    all_goals omega
  · intro hLt
    rw [hl1]
    repeat' split
    all_goals omega
  · intro hGt
    rw [hl1]
    repeat' split
    all_goals omega
  · intro hEq
    rw [hr1]
    repeat' split
    all_goals omega
  · intro hLt
    rw [hr1]
    repeat' split
    all_goals omega
  · intro hGt
    rw [hr1]
    repeat' split
    all_goals omega
  · rw [hl1, absDiff]
    repeat' split
    all_goals omega
  · rw [hr1, absDiff]
    repeat' split
    all_goals omega
  · intro hne
    have hpl : p.1.next_left = nlr.1 := by rw [← hfin]
    rw [hpl] at hne
    have := retargetSide_eq_of_ne hnl (by exact hne)
    rw [hl1, ← this]
  · intro hne hne3
    have hpr : p.1.next_right =
        if absDiff nrr.1 nlr.1 < 3 then wadd nrr.1 3 else nrr.1 := by rw [← hfin]
    by_cases hc : nrr.1 = w.next_right
    · exfalso
      rw [hc] at hpr
      by_cases hd : absDiff w.next_right nlr.1 < 3
      · rw [if_pos hd] at hpr
        exact hne3 hpr
      · rw [if_neg hd] at hpr
        exact hne hpr
    · have := retargetSide_eq_of_ne hnr hc
      rw [hr1, ← this]
/-- C5 witness: one tick from `World.new 40 20` with draw stream `[0]`;
row 0 moves from `(15, 25)` to `(14, 26)`, one column toward each target. -/
theorem C5_row0_drift_retarget_witness :
    ((15 : Nat) = (World.new 40 20).next_left → (14 : Nat) = 15) ∧
    ((15 : Nat) < (World.new 40 20).next_left → (14 : Nat) = 15 + 1) ∧
    ((World.new 40 20).next_left < 15 → (14 : Nat) = 15 - 1) ∧
    ((25 : Nat) = (World.new 40 20).next_right → (26 : Nat) = 25) ∧
    ((25 : Nat) < (World.new 40 20).next_right → (26 : Nat) = 25 + 1) ∧
    ((World.new 40 20).next_right < 25 → (26 : Nat) = 25 - 1) ∧
    absDiff 14 15 ≤ 1 ∧ absDiff 26 25 ≤ 1 ∧
    (((physics (World.new 40 20) [0]).getD (World.new 40 20, [])).1.next_left ≠
        (World.new 40 20).next_left → (14 : Nat) = (World.new 40 20).next_left) ∧
    (((physics (World.new 40 20) [0]).getD (World.new 40 20, [])).1.next_right ≠
        (World.new 40 20).next_right →
      ((physics (World.new 40 20) [0]).getD (World.new 40 20, [])).1.next_right ≠
        wadd (World.new 40 20).next_right 3 → (26 : Nat) = (World.new 40 20).next_right) ∧
    (∀ cur tgt rng0 v rng1, cur ≠ tgt → retargetSide cur tgt rng0 = some (v, rng1) →
      v = tgt ∧ rng1 = rng0) :=
  C5_row0_drift_retarget (World.new 40 20) [0] _ 15 25 14 26 rfl rfl rfl

/-- C6 amended: whenever the spawn phase completes, every enemy in its
output is either an input enemy or a fresh one at row 0 with column in the
half-open range `[map[0].left, map[1].right)` (greater than OR EQUAL to the
left bound), and a spawn happens only when the 10%-draw residue is 9. -/
theorem C6_spawn_range (map : List (Nat × Nat)) (es : List Enemy) (rng : List Nat)
    (res : List Enemy × List Nat) (m0 m1 : Nat × Nat)
    (h0 : map[0]? = some m0) (h1 : map[1]? = some m1)
    (h : spawnPhase map es rng = some res) :
    (∀ e ∈ res.1, e ∈ es ∨
      (e.location.l = 0 ∧ m0.1 ≤ e.location.c ∧ e.location.c < m1.2)) ∧
    (res.1 ≠ es → rng.headD 0 % 10 ≥ 9) := by
  rw [spawnPhase] at h
  have hg : genRange 0 10 rng = some (0 + (rng.headD 0 % 10), rng.tail) := by
    rw [genRange, if_pos (by omega)]
  rw [hg] at h
  dsimp only at h
  split at h
  case isTrue hd =>
    rw [h0, h1] at h
    dsimp only at h
    cases hg2 : genRange m0.1 m1.2 rng.tail with
    | none => rw [hg2] at h; exact absurd h (by simp)
    | some cr =>
      rw [hg2] at h
      injection h with h
      rw [genRange] at hg2
      split at hg2
      case isTrue hlt =>
        injection hg2 with hg2
        have hc1 : cr.1 = m0.1 + (rng.tail.headD 0 % (m1.2 - m0.1)) :=
          (congrArg Prod.fst hg2).symm
        have hmod := Nat.mod_lt (rng.tail.headD 0) (show 0 < m1.2 - m0.1 by omega)
        constructor
        · intro e he
          rw [← h] at he
          simp only [List.mem_append, List.mem_singleton] at he
          cases he with
          | inl hmem => exact Or.inl hmem
          | inr heq =>
            refine Or.inr ?_
            rw [heq]
            refine ⟨rfl, ?_, ?_⟩ <;> dsimp only <;> omega
        · intro _
          omega
      case isFalse => exact absurd hg2 (by simp)
  case isFalse hd =>
    injection h with h
    constructor
    · intro e he
      rw [← h] at he
      exact Or.inl he
    · intro hne
      exfalso
      apply hne
      rw [← h]
/-- C6 amended witness: the `[9, 0]` tick spawns at column `14 = map[0].left`,
inside the half-open range `[14, 25)`. -/
theorem C6_spawn_range_witness :
    (∀ e ∈ ([⟨⟨0, 14⟩⟩] : List Enemy), e ∈ ([] : List Enemy) ∨
      (e.location.l = 0 ∧ 14 ≤ e.location.c ∧ e.location.c < 25)) ∧
    (([⟨⟨0, 14⟩⟩] : List Enemy) ≠ [] → ([9, 0] : List Nat).headD 0 % 10 ≥ 9) :=
  C6_spawn_range [(14, 26), (15, 25)] [] [9, 0] ([⟨⟨0, 14⟩⟩], []) (14, 26) (15, 25)
    rfl rfl rfl

/-- C7 amended: the enemy pass advances every enemy with row below `maxl` by
exactly one row and drops exactly those whose row has reached `maxl`; hence
an enemy spawned at row 0 with `maxl = 20` sits at row 20 after 20 ticks and
is removed by the 21st tick. -/
theorem C7_enemy_move_despawn :
    (∀ (maxl : Nat) (es : List Enemy),
      moveEnemiesLoop maxl es.length es =
        es.filterMap (fun e =>
          if e.location.l < maxl then some ⟨⟨e.location.l + 1, e.location.c⟩⟩ else none)) ∧
    (steps 21 spawnTickWorld zeroRng).map (fun p => p.1.enemy) = some [] := by
  constructor
  · intro maxl es
    have hx := moveEnemiesLoop_eq_filterMap maxl es []
    simpa using hx
  · rfl
/-- C8: from any in-bounds `u16` state, every key press keeps the player
inside `[1, maxl-1] x [1, maxc-1]`, moves it by at most one cell (never a
wrap), and a move against a bound is a no-op on the whole world. -/
theorem C8_move_clamped (w : World) (k : GameKey)
    (hc16 : w.maxc ≤ 65535) (hl16 : w.maxl ≤ 65535)
    (hl1 : 1 ≤ w.player_location.l) (hl2 : w.player_location.l ≤ w.maxl - 1)
    (hc1 : 1 ≤ w.player_location.c) (hc2 : w.player_location.c ≤ w.maxc - 1) :
    (1 ≤ (applyKey w k).player_location.l ∧ (applyKey w k).player_location.l ≤ w.maxl - 1 ∧
     1 ≤ (applyKey w k).player_location.c ∧ (applyKey w k).player_location.c ≤ w.maxc - 1) ∧
    absDiff (applyKey w k).player_location.l w.player_location.l +
      absDiff (applyKey w k).player_location.c w.player_location.c ≤ 1 ∧
    (w.player_location.l = 1 → (k = GameKey.keyW ∨ k = GameKey.keyUp) → applyKey w k = w) ∧
    (w.player_location.l = w.maxl - 1 → (k = GameKey.keyS ∨ k = GameKey.keyDown) →
      applyKey w k = w) ∧
    (w.player_location.c = 1 → (k = GameKey.keyA ∨ k = GameKey.keyLeft) → applyKey w k = w) ∧
    (w.player_location.c = w.maxc - 1 → (k = GameKey.keyD ∨ k = GameKey.keyRight) →
      applyKey w k = w) := by
  have hml : wsub w.maxl 1 = w.maxl - 1 := by unfold wsub; omega
  have hmc : wsub w.maxc 1 = w.maxc - 1 := by unfold wsub; omega
  cases k <;>
    simp only [applyKey, hml, hmc] <;>
    (try split) <;>
    refine ⟨⟨?_, ?_, ?_, ?_⟩, ?_, ?_, ?_, ?_, ?_⟩ <;>
    first
    | (intro h1 h2; first | rfl | (exact absurd h1 (by omega)) | (cases h2 <;> simp_all))
    | (unfold absDiff; try dsimp only
       repeat' split
       all_goals omega)
    | (dsimp only; omega)
/-- C8 witness: `World.new 40 20` (player at `(19, 20)`, bounds
`[1, 19] x [1, 39]`) with a move-up key press. -/
theorem C8_move_clamped_witness :
    (1 ≤ (applyKey (World.new 40 20) GameKey.keyUp).player_location.l ∧
     (applyKey (World.new 40 20) GameKey.keyUp).player_location.l ≤ (World.new 40 20).maxl - 1 ∧
     1 ≤ (applyKey (World.new 40 20) GameKey.keyUp).player_location.c ∧
     (applyKey (World.new 40 20) GameKey.keyUp).player_location.c ≤ (World.new 40 20).maxc - 1) ∧
    absDiff (applyKey (World.new 40 20) GameKey.keyUp).player_location.l
        (World.new 40 20).player_location.l +
      absDiff (applyKey (World.new 40 20) GameKey.keyUp).player_location.c
        (World.new 40 20).player_location.c ≤ 1 ∧
    ((World.new 40 20).player_location.l = 1 →
      (GameKey.keyUp = GameKey.keyW ∨ GameKey.keyUp = GameKey.keyUp) →
      applyKey (World.new 40 20) GameKey.keyUp = World.new 40 20) ∧
    ((World.new 40 20).player_location.l = (World.new 40 20).maxl - 1 →
      (GameKey.keyUp = GameKey.keyS ∨ GameKey.keyUp = GameKey.keyDown) →
      applyKey (World.new 40 20) GameKey.keyUp = World.new 40 20) ∧
    ((World.new 40 20).player_location.c = 1 →
      (GameKey.keyUp = GameKey.keyA ∨ GameKey.keyUp = GameKey.keyLeft) →
      applyKey (World.new 40 20) GameKey.keyUp = World.new 40 20) ∧
    ((World.new 40 20).player_location.c = (World.new 40 20).maxc - 1 →
      (GameKey.keyUp = GameKey.keyD ∨ GameKey.keyUp = GameKey.keyRight) →
      applyKey (World.new 40 20) GameKey.keyUp = World.new 40 20) :=
  C8_move_clamped (World.new 40 20) GameKey.keyUp (by decide) (by decide) (by decide)
    (by decide) (by decide) (by decide)
